import Mathlib

/-!
# Envelope image store — shallow embedding of `src/server.js`

This file embeds the core of the repository's single source file,
`src/server.js` (an Express server binding an integer "envelope" id to a
single current image blob stored in GridFS, with a Mongo catalog entry per
envelope), and proves/refutes the frozen claims about it.

Modelling decisions, each traceable to the source:

* The Mongo `Upload` collection becomes `St.catalog : List Entry`
  (one document per list element, in insertion order); GridFS becomes
  `St.blobs : List (Nat × BlobRec)` keyed by an opaque handle
  (`uploadStream.id` / `fileId`); `St.nextHandle` generates fresh handles
  (ObjectId freshness).
* JavaScript `Number(string)` coercion (line 68 `Number(envelopeIdRaw)` and
  line 177 `Number(req.params.envelopeId)`) is modelled exactly as the
  ECMAScript StringToNumber algorithm over exact (unnormalized) fractions
  `Int × Nat` (numerator, positive denominator); `none` stands for NaN or
  ±Infinity (both fail the subsequent `Number.isInteger` test, so the
  validation outcome is identical).  IEEE-754 rounding is not modelled;
  every input used in a theorem below has an exactly representable value.
* Each handler is a pure function of the state plus fault-injection flags
  for the two backend writes that the source guards with try/catch
  (the GridFS upload stream error, lines 94–99, and the catalog
  `findOneAndUpdate`, lines 102–113).  Handlers also return an execution
  trace: each storage-mutating step is recorded as an `Event` paired with
  the state *just before* that step, so ordering claims (which write/delete
  became visible while the catalog still held what) are directly statable.
-/

/-! ## ECMAScript StringToNumber, exact-rational model -/

/-- Whitespace stripped by `Number(string)` before parsing
(StrWhiteSpace: space, tab, line terminators, form feed, vertical tab). -/
def isStrWhiteSpace (c : Char) : Bool :=
  c = ' ' || c = '\t' || c = '\n' || c = '\r' || c = '\x0b' || c = '\x0c'

/-- Decimal digit value of a character, if any. -/
def digitVal? (c : Char) : Option Nat :=
  if '0' ≤ c ∧ c ≤ '9' then some (c.toNat - '0'.toNat) else none

/-- Hexadecimal digit value of a character, if any. -/
def hexDigitVal? (c : Char) : Option Nat :=
  if '0' ≤ c ∧ c ≤ '9' then some (c.toNat - '0'.toNat)
  else if 'a' ≤ c ∧ c ≤ 'f' then some (c.toNat - 'a'.toNat + 10)
  else if 'A' ≤ c ∧ c ≤ 'F' then some (c.toNat - 'A'.toNat + 10)
  else none

/-- Fold a digit list into a natural number in the given radix, failing on a
character whose digit value (per `dig`) is missing or out of range. -/
def radixDigitsAux (radix : Nat) (dig : Char → Option Nat) :
    Nat → List Char → Option Nat
  | acc, [] => some acc
  | acc, c :: cs =>
    match dig c with
    | some d => if d < radix then radixDigitsAux radix dig (acc * radix + d) cs else none
    | none => none

/-- Nonempty digit string in the given radix. -/
def radixDigits? (radix : Nat) (dig : Char → Option Nat) : List Char → Option Nat
  | [] => none
  | cs => radixDigitsAux radix dig 0 cs

/-- Nonempty decimal digit string. -/
def decDigits? : List Char → Option Nat := radixDigits? 10 digitVal?

/-- An exact finite number value: numerator over a positive denominator
(kept unnormalized; the denominator is a power of ten by construction). -/
abbrev JSNum := Int × Nat

/-- Exponent part of a decimal literal: optional sign, then digits. -/
def parseExponent? : List Char → Option Int
  | '+' :: cs => (decDigits? cs).map Int.ofNat
  | '-' :: cs => (decDigits? cs).map (fun n => -(n : Int))
  | cs => (decDigits? cs).map Int.ofNat

/-- Unsigned decimal mantissa: `Digits`, `Digits.`, `Digits.Digits` or
`.Digits`, as an exact fraction. -/
def parseMantissa? (cs : List Char) : Option JSNum :=
  let ip := cs.takeWhile (fun c => c ≠ '.')
  match cs.dropWhile (fun c => c ≠ '.') with
  | [] => (decDigits? ip).map (fun n => ((n : Int), 1))
  | _ :: fp =>
    match ip, fp with
    | [], [] => none
    | [], _ => (decDigits? fp).map (fun f => ((f : Int), 10 ^ fp.length))
    | _, [] => (decDigits? ip).map (fun n => ((n : Int), 1))
    | _, _ =>
      match decDigits? ip, decDigits? fp with
      | some n, some f =>
        some (((n * 10 ^ fp.length + f : Nat) : Int), 10 ^ fp.length)
      | _, _ => none

/-- Multiply an exact fraction by `10 ^ e`. -/
def applyExp (m : JSNum) (e : Int) : JSNum :=
  match e with
  | Int.ofNat k => (m.1 * (10 : Int) ^ k, m.2)
  | Int.negSucc k => (m.1, m.2 * 10 ^ (k + 1))

/-- Unsigned decimal literal with optional exponent (`1e2`, `3.5E-1`, …). -/
def parseUnsignedDecimal? (cs : List Char) : Option JSNum :=
  let m := cs.takeWhile (fun c => c ≠ 'e' ∧ c ≠ 'E')
  match cs.dropWhile (fun c => c ≠ 'e' ∧ c ≠ 'E') with
  | [] => parseMantissa? m
  | _ :: ex =>
    match parseMantissa? m, parseExponent? ex with
    | some q, some e => some (applyExp q e)
    | _, _ => none

/-- ECMAScript `Number(string)` (StringToNumber) over exact fractions.
`none` stands for NaN or ±Infinity.  Handles whitespace trimming, the empty
string (→ 0), signed decimal literals with fraction/exponent, `Infinity`,
and unsigned `0x`/`0o`/`0b` radix literals. -/
def strToNumber (s : String) : Option JSNum :=
  let cs := ((s.toList.dropWhile isStrWhiteSpace).reverse.dropWhile isStrWhiteSpace).reverse
  match cs with
  | [] => some (0, 1)
  | '+' :: rest =>
    if rest = "Infinity".toList then none else parseUnsignedDecimal? rest
  | '-' :: rest =>
    if rest = "Infinity".toList then none
    else (parseUnsignedDecimal? rest).map (fun m => (-m.1, m.2))
  | '0' :: 'x' :: rest => (radixDigits? 16 hexDigitVal? rest).map (fun n => ((n : Int), 1))
  | '0' :: 'X' :: rest => (radixDigits? 16 hexDigitVal? rest).map (fun n => ((n : Int), 1))
  | '0' :: 'o' :: rest => (radixDigits? 8 digitVal? rest).map (fun n => ((n : Int), 1))
  | '0' :: 'O' :: rest => (radixDigits? 8 digitVal? rest).map (fun n => ((n : Int), 1))
  | '0' :: 'b' :: rest => (radixDigits? 2 digitVal? rest).map (fun n => ((n : Int), 1))
  | '0' :: 'B' :: rest => (radixDigits? 2 digitVal? rest).map (fun n => ((n : Int), 1))
  | _ =>
    if cs = "Infinity".toList then none else parseUnsignedDecimal? cs

/-- `Number(x)` where `x` is a form field: `undefined` (absent field) gives
NaN, a string is coerced by StringToNumber.  (`req.body.envelopeId`,
line 67–68.) -/
def jsToNumber : Option String → Option JSNum
  | none => none
  | some s => strToNumber s

/-- The envelope-id validation of lines 68–72 and 177–181:
`Number(raw)` must be an integer (`Number.isInteger`) and nonnegative.
Returns the accepted id.  For an exact finite value `n / d` (with `d > 0`),
`Number.isInteger` holds iff `d` divides `n`, and nonnegativity is
`0 ≤ n`. -/
def envelopeIdOf (raw : Option String) : Option Nat :=
  match jsToNumber raw with
  | none => none
  | some (n, d) =>
    if 0 ≤ n ∧ n % (d : Int) = 0 then some (n / (d : Int)).toNat else none

/-! ## Data model -/

/-- An uploaded multipart file as multer's memory storage presents it:
`originalname`, `mimetype`, and the buffered bytes (`size` is the buffer
length). -/
structure File where
  originalname : String
  mimetype : String
  buffer : List Nat
  deriving Repr, DecidableEq

/-- A stored GridFS blob: content type recorded at `openUploadStream`
(line 88–91) plus the bytes. -/
structure BlobRec where
  contentType : String
  bytes : List Nat
  deriving Repr, DecidableEq

/-- A catalog document of the `Upload` collection, with the fields the
upsert of lines 102–113 writes.  `fileId` is the blob handle (`none` models
a document lacking the field, which the listing handlers test for with
`!d.fileId`).  `createdAt` is modelled from the spec: the schema module
`models/upload` is not part of `src/`, and per the spec (§3) `createdAt` is
set on first creation of the entry and preserved on replace (the upsert
does not list it among the updated fields). -/
structure Entry where
  envelopeId : Nat
  originalName : String
  mimeType : String
  size : Nat
  fileId : Option Nat
  url : String
  createdAt : Nat
  deriving Repr, DecidableEq

/-- Server-side storage state: catalog documents in insertion order, GridFS
blobs keyed by handle, a fresh-handle counter, and a clock for
`createdAt`. -/
structure St where
  catalog : List Entry
  blobs : List (Nat × BlobRec)
  nextHandle : Nat
  now : Nat
  deriving Repr, DecidableEq

/-- One storage-mutating step of a handler. -/
inductive Event where
  | blobDelete (h : Nat)
  | blobWrite (h : Nat)
  | catalogUpsert (eid : Nat) (h : Nat)
  | catalogRemove (eid : Nat)
  deriving Repr, DecidableEq

/-- An execution trace: each event paired with the state immediately
before the event took effect. -/
abbrev Trace := List (Event × St)

/-! ## Catalog and blob-store primitives -/

/-- `Upload.findOne({envelopeId})` (line 79): first document matching the
envelope id. -/
def findOne (catalog : List Entry) (eid : Nat) : Option Entry :=
  catalog.find? (fun e => e.envelopeId == eid)

/-- `Upload.findOneAndUpdate({envelopeId}, fields, {upsert: true})`
(lines 102–113): replace the first matching document in place, or append a
new one. -/
def upsertEntry (catalog : List Entry) (eid : Nat) (e : Entry) : List Entry :=
  match catalog with
  | [] => [e]
  | x :: xs => if x.envelopeId == eid then e :: xs else x :: upsertEntry xs eid e

/-- `Upload.findOneAndDelete({envelopeId})` (line 183): remove and return
the first matching document. -/
def removeOne (catalog : List Entry) (eid : Nat) : Option Entry × List Entry :=
  match catalog with
  | [] => (none, [])
  | x :: xs =>
    if x.envelopeId == eid then (some x, xs)
    else
      let (d, rest) := removeOne xs eid
      (d, x :: rest)

/-- `gfsBucket.delete(handle)` (lines 82, 191): remove the blob with that
handle; deleting an absent handle is a no-op (the source ignores the
callback's error). -/
def blobsDelete (blobs : List (Nat × BlobRec)) (h : Nat) : List (Nat × BlobRec) :=
  blobs.filter (fun p => p.1 ≠ h)

/-- GridFS read by handle (`openDownloadStream`, lines 212–232): the stored
blob record, or `none` (the handler answers 404). -/
def readBlob (st : St) (h : Nat) : Option BlobRec :=
  (st.blobs.find? (fun p => p.1 == h)).map (fun p => p.2)

/-! ## Handlers -/

/-- Outcome of `POST /api/uploads`. -/
inductive PutResult where
  | badRequest (msg : String)
  | serverError
  | ok (e : Entry)
  deriving Repr, DecidableEq

/-- JS `String.prototype.startsWith`, on character lists (the library
version over UTF-8 byte positions does not reduce in the kernel). -/
def charsStartWith : List Char → List Char → Bool
  | _, [] => true
  | [], _ :: _ => false
  | c :: cs, p :: ps => c == p && charsStartWith cs ps

/-- JS `s.startsWith(pre)`. -/
def strStartsWith (s pre : String) : Bool :=
  charsStartWith s.toList pre.toList

/-- multer's `fileFilter` (lines 40–46): a present file whose mimetype does
not start with `image/` makes the middleware fail the request before the
handler body runs; an absent file passes the filter (the handler checks for
it separately). -/
def multerRejects : Option File → Bool
  | some f => ! strStartsWith f.mimetype "image/"
  | none => false

/-- The storage-touching part of `POST /api/uploads` (lines 79–123), run
only after validation has passed.  Order of effects, as in the source:

1. `findOne` for the existing document and, if it has a `fileId`,
   **immediate** `gfsBucket.delete` of that old blob (lines 79–86);
2. GridFS upload of the buffered bytes (lines 88–99) — `blobWriteFails`
   injects the stream `error` event, caught at line 124 (500);
3. catalog upsert (lines 101–113) — `catalogWriteFails` injects a rejected
   `findOneAndUpdate`, caught at line 124 (500);
4. the response echoes the upserted document (lines 115–123). -/
def putCore (st : St) (eid : Nat) (f : File)
    (blobWriteFails catalogWriteFails : Bool) : PutResult × St × Trace :=
  -- lines 79–86: delete the old blob right away, before anything else
  let existing := findOne st.catalog eid
  let (st1, tr1) : St × Trace :=
    match existing with
    | some e =>
      match e.fileId with
      | some hOld =>
        ({ st with blobs := blobsDelete st.blobs hOld },
         [(Event.blobDelete hOld, st)])
      | none => (st, [])
    | none => (st, [])
  -- lines 88–99: stream the buffer into a new GridFS blob
  if blobWriteFails then (.serverError, st1, tr1)
  else
    let hNew := st1.nextHandle
    let st2 : St :=
      { st1 with
        blobs := st1.blobs ++ [(hNew, ⟨f.mimetype, f.buffer⟩)]
        nextHandle := hNew + 1 }
    let tr2 := tr1 ++ [(Event.blobWrite hNew, st1)]
    -- lines 101–113: upsert the catalog document
    if catalogWriteFails then (.serverError, st2, tr2)
    else
      let newEntry : Entry :=
        { envelopeId := eid
          originalName := f.originalname
          mimeType := f.mimetype
          size := f.buffer.length
          fileId := some hNew
          url := "/api/files/" ++ toString hNew
          createdAt :=
            match existing with
            | some e => e.createdAt
            | none => st2.now }
      let st3 : St :=
        { st2 with
          catalog := upsertEntry st2.catalog eid newEntry
          now := st2.now + 1 }
      (.ok newEntry, st3, tr2 ++ [(Event.catalogUpsert eid hNew, st2)])

/-- `POST /api/uploads` (lines 63–127): multer's `fileFilter` (lines 40–46)
rejects a present non-`image/*` file before the handler body runs, then the
envelope-id validation (lines 67–72) and the missing-file check
(lines 74–77) run, and only then does the handler touch storage
(`putCore`). -/
def put (st : St) (raw : Option String) (file : Option File)
    (blobWriteFails catalogWriteFails : Bool) : PutResult × St × Trace :=
  if multerRejects file then
    (.badRequest "Only image uploads are allowed", st, [])
  else
    match envelopeIdOf raw with
    | none => (.badRequest "Invalid envelopeId", st, [])
    | some eid =>
      match file with
      | none => (.badRequest "No file uploaded", st, [])
      | some f => putCore st eid f blobWriteFails catalogWriteFails

/-- Outcome of `DELETE /api/envelopes/:envelopeId`. -/
inductive DeleteResult where
  | badRequest (msg : String)
  | okDeleted (deleted : Bool)
  deriving Repr, DecidableEq

/-- `DELETE /api/envelopes/:envelopeId` (lines 174–201): validate the id,
`findOneAndDelete` the document, answer `deleted: false` if absent,
otherwise delete the referenced blob (if the document has one) and answer
`deleted: true`. -/
def deleteEnvelope (st : St) (raw : String) : DeleteResult × St × Trace :=
  match envelopeIdOf (some raw) with
  | none => (.badRequest "Invalid envelopeId", st, [])
  | some eid =>
    let (doc?, cat') := removeOne st.catalog eid
    match doc? with
    | none => (.okDeleted false, st, [])
    | some doc =>
      let st1 : St := { st with catalog := cat' }
      match doc.fileId with
      | some h =>
        (.okDeleted true, { st1 with blobs := blobsDelete st1.blobs h },
         [(Event.catalogRemove eid, st), (Event.blobDelete h, st1)])
      | none => (.okDeleted true, st1, [(Event.catalogRemove eid, st)])

/-- Insertion step for the `sort({createdAt: -1})` of line 131:
place `e` before the first element with a strictly smaller `createdAt`. -/
def insertByCreatedAtDesc (e : Entry) : List Entry → List Entry
  | [] => [e]
  | x :: xs =>
    if x.createdAt ≤ e.createdAt then e :: x :: xs
    else x :: insertByCreatedAtDesc e xs

/-- `createdAt`-descending sort (line 131). -/
def sortByCreatedAtDesc (l : List Entry) : List Entry :=
  l.foldr insertByCreatedAtDesc []

/-- Visibility filter of the listing handlers (lines 134–137 and 158–160):
when no static `UPLOAD_DIR` is configured, documents without a `fileId`
are dropped. -/
def visibleEntry (uploadDirSet : Bool) (e : Entry) : Bool :=
  uploadDirSet || e.fileId.isSome

/-- `GET /api/uploads` (lines 129–148): sort `createdAt` descending, limit
to 200, then apply the visibility filter.  (The final `.map` to the wire
record is elementwise and preserves order and length; the claims are stated
on the document list.) -/
def getAll (uploadDirSet : Bool) (st : St) : List Entry :=
  ((sortByCreatedAtDesc st.catalog).take 200).filter (visibleEntry uploadDirSet)

/-- `GET /api/envelopes` (lines 150–172) restricted to one key: the
`byEnvelopeId` object maps each envelope id to the *last* visible document
with that id (later `forEach` assignments overwrite earlier ones).  The
source also skips documents whose `envelopeId` is not a nonnegative
integer; in the embedding `envelopeId : Nat`, so that guard is vacuous. -/
def envelopesGet (uploadDirSet : Bool) (st : St) (eid : Nat) : Option Entry :=
  ((st.catalog.filter (visibleEntry uploadDirSet)).reverse).find?
    (fun e => e.envelopeId == eid)

/-! ## Well-formedness of reachable states -/

/-- Invariants every state reachable by these handlers satisfies: catalog
documents have pairwise-distinct envelope ids and pairwise-distinct blob
handles, stored blobs have pairwise-distinct handles, and every handle in
use is below the fresh-handle counter. -/
def WF (st : St) : Prop :=
  st.catalog.Pairwise (fun a b => a.envelopeId ≠ b.envelopeId) ∧
  st.catalog.Pairwise (fun a b => a.fileId = none ∨ a.fileId ≠ b.fileId) ∧
  st.blobs.Pairwise (fun a b => a.1 ≠ b.1) ∧
  (∀ p ∈ st.blobs, p.1 < st.nextHandle) ∧
  (∀ e ∈ st.catalog, ∀ h, e.fileId = some h → h < st.nextHandle)

instance (st : St) : Decidable (WF st) := by
  unfold WF
  infer_instance

/-! ## Trace predicates used by the ordering claims -/

/-- `true` iff the event is a blob deletion. -/
def isBlobDelete : Event → Bool
  | .blobDelete _ => true
  | _ => false

/-- `true` iff the event is a catalog upsert. -/
def isCatalogUpsert : Event → Bool
  | .catalogUpsert _ _ => true
  | _ => false

/-- Scanning an event list with a flag recording whether a catalog upsert
has already been acknowledged: `false` as soon as a blob deletion is
requested while no upsert has happened yet. -/
def deletionOnlyAfterUpsertFrom : Bool → List Event → Bool
  | _, [] => true
  | seen, Event.blobDelete _ :: rest => seen && deletionOnlyAfterUpsertFrom seen rest
  | _, Event.catalogUpsert _ _ :: rest => deletionOnlyAfterUpsertFrom true rest
  | seen, _ :: rest => deletionOnlyAfterUpsertFrom seen rest

/-- The ordering discipline claimed by the spec for `put`: every blob
deletion in the execution comes after a catalog upsert has been
acknowledged. -/
def deletionOnlyAfterUpsert (evs : List Event) : Bool :=
  deletionOnlyAfterUpsertFrom false evs

/-- `true` iff some present catalog document references blob handle `h`. -/
def entryRefs (cat : List Entry) (h : Nat) : Bool :=
  cat.any (fun e => e.fileId == some h)

/-- The invariant claimed by the spec for every operation: at the moment a
blob deletion is issued, no present catalog document references the
deleted handle. -/
def noLiveRefDeleted (tr : Trace) : Bool :=
  tr.all (fun p =>
    match p.1 with
    | Event.blobDelete h => ! entryRefs p.2.catalog h
    | _ => true)

/-! ## Concrete fixtures for witnesses and counterexamples -/

/-- A small image upload. -/
def pngFile : File := ⟨"cat.png", "image/png", [1, 2, 3]⟩

/-- A second, different image upload. -/
def dogFile : File := ⟨"dog.png", "image/png", [9, 9]⟩

/-- An image upload with an empty byte buffer. -/
def emptyFile : File := ⟨"empty.png", "image/png", []⟩

/-- The empty server state. -/
def st0 : St := ⟨[], [], 0, 0⟩

/-- The state after a first successful upload of `pngFile` to envelope 5. -/
def stOne : St := (put st0 (some "5") (some pngFile) false false).2.1

/-- The catalog document present in `stOne`. -/
def entryOne : Entry := ⟨5, "cat.png", "image/png", 3, some 0, "/api/files/0", 0⟩

/-! ## Helper lemmas -/

theorem mem_upsertEntry {cat : List Entry} {eid : Nat} {e x : Entry}
    (hx : x ∈ upsertEntry cat eid e) : x = e ∨ x ∈ cat := by
  induction cat with
  | nil => simpa [upsertEntry] using hx
  | cons y ys ih =>
    by_cases h : (y.envelopeId == eid) = true
    · simp only [upsertEntry, h, if_true, List.mem_cons] at hx
      rcases hx with h1 | h1
      · exact Or.inl h1
      · exact Or.inr (List.mem_cons_of_mem _ h1)
    · simp only [upsertEntry, h, if_false, Bool.false_eq_true, List.mem_cons] at hx
      rcases hx with h1 | h1
      · exact Or.inr (by simp [h1])
      · rcases ih h1 with h2 | h2
        · exact Or.inl h2
        · exact Or.inr (List.mem_cons_of_mem _ h2)

/-- After an upsert of a visible document for `eid` into a catalog whose
envelope ids are pairwise distinct, the `byEnvelopeId`-style lookup
(last visible document with that id) returns exactly the upserted
document. -/
theorem find?_reverse_filter_upsertEntry (u : Bool) {cat : List Entry} {eid : Nat}
    {e : Entry} (hP : cat.Pairwise (fun a b => a.envelopeId ≠ b.envelopeId))
    (hid : e.envelopeId = eid) (hvis : visibleEntry u e = true) :
    ((upsertEntry cat eid e).filter (visibleEntry u)).reverse.find?
      (fun x => x.envelopeId == eid) = some e := by
  induction cat with
  | nil =>
    simp [upsertEntry, List.filter, hvis, List.find?, hid]
  | cons y ys ih =>
    rcases List.pairwise_cons.mp hP with ⟨hy, hys⟩
    by_cases h : (y.envelopeId == eid) = true
    · -- document replaced in place: result is `e :: ys`
      have hyeid : y.envelopeId = eid := by simpa using h
      have hnone :
          ((ys.filter (visibleEntry u)).reverse).find? (fun x => x.envelopeId == eid) = none := by
        refine List.find?_eq_none.mpr ?_
        intro x hx
        have hxys : x ∈ ys := List.mem_of_mem_filter (List.mem_reverse.mp hx)
        have hne := hy x hxys
        simp only [beq_iff_eq]
        exact fun hc => hne (hyeid.trans hc.symm)
      rw [upsertEntry, if_pos h]
      simp only [List.filter_cons, hvis, if_true, List.reverse_cons, List.find?_append, hnone]
      simp [List.find?, hid]
    · rw [upsertEntry, if_neg h]
      rcases hv : visibleEntry u y with _ | _
      · simp only [List.filter_cons, hv, Bool.false_eq_true, if_false]
        exact ih hys
      · simp only [List.filter_cons, hv, if_true, List.reverse_cons, List.find?_append, ih hys]
        rfl

/-- Looking up a freshly appended blob handle succeeds when no existing
blob uses that handle. -/
theorem find?_append_fresh {blobs : List (Nat × BlobRec)} {h : Nat} {rec : BlobRec}
    (hfresh : ∀ p ∈ blobs, p.1 ≠ h) :
    (blobs ++ [(h, rec)]).find? (fun p => p.1 == h) = some (h, rec) := by
  rw [List.find?_append]
  have hnone : blobs.find? (fun p => p.1 == h) = none :=
    List.find?_eq_none.mpr (by intro x hx; simpa using hfresh x hx)
  simp [hnone]

theorem removeOne_of_not_found {cat : List Entry} {eid : Nat}
    (h : ∀ e ∈ cat, (e.envelopeId == eid) = false) : removeOne cat eid = (none, cat) := by
  induction cat with
  | nil => simp [removeOne]
  | cons x xs ih =>
    have hx := h x (List.mem_cons_self x xs)
    simp [removeOne, hx, ih (fun e he => h e (List.mem_cons_of_mem _ he))]

theorem removeOne_eq_some {cat : List Entry} {eid : Nat} {doc : Entry} {cat' : List Entry}
    (h : removeOne cat eid = (some doc, cat')) :
    ∃ l₁ l₂, cat = l₁ ++ doc :: l₂ ∧ cat' = l₁ ++ l₂ ∧ doc.envelopeId = eid := by
  induction cat generalizing cat' with
  | nil => simp [removeOne] at h
  | cons x xs ih =>
    by_cases hx : (x.envelopeId == eid) = true
    · rw [removeOne, if_pos hx, Prod.mk.injEq] at h
      obtain ⟨h1, h2⟩ := h
      obtain rfl : x = doc := Option.some.inj h1
      exact ⟨[], xs, rfl, by simp [h2], by simpa using hx⟩
    · rw [removeOne, if_neg hx] at h
      rcases hr : removeOne xs eid with ⟨d, rest⟩
      rw [hr, Prod.mk.injEq] at h
      obtain ⟨h1, h2⟩ := h
      rw [h1] at hr
      obtain ⟨l₁, l₂, e1, e2, e3⟩ := ih hr
      exact ⟨x :: l₁, l₂, by simp [e1], by simp [← h2, e2], e3⟩

theorem mem_insertByCreatedAtDesc {e x : Entry} {l : List Entry}
    (hx : x ∈ insertByCreatedAtDesc e l) : x = e ∨ x ∈ l := by
  induction l with
  | nil => simpa [insertByCreatedAtDesc] using hx
  | cons y ys ih =>
    by_cases h : y.createdAt ≤ e.createdAt
    · simp only [insertByCreatedAtDesc, if_pos h, List.mem_cons] at hx
      rcases hx with h1 | h1 | h1
      · exact Or.inl h1
      · exact Or.inr (by simp [h1])
      · exact Or.inr (List.mem_cons_of_mem _ h1)
    · simp only [insertByCreatedAtDesc, if_neg h, List.mem_cons] at hx
      rcases hx with h1 | h1
      · exact Or.inr (by simp [h1])
      · rcases ih h1 with h2 | h2
        · exact Or.inl h2
        · exact Or.inr (List.mem_cons_of_mem _ h2)

theorem pairwise_insertByCreatedAtDesc {e : Entry} {l : List Entry}
    (hl : l.Pairwise (fun a b => b.createdAt ≤ a.createdAt)) :
    (insertByCreatedAtDesc e l).Pairwise (fun a b => b.createdAt ≤ a.createdAt) := by
  induction l with
  | nil => simp [insertByCreatedAtDesc]
  | cons y ys ih =>
    rcases List.pairwise_cons.mp hl with ⟨hy, hys⟩
    by_cases h : y.createdAt ≤ e.createdAt
    · rw [insertByCreatedAtDesc, if_pos h]
      refine List.pairwise_cons.mpr ⟨?_, hl⟩
      intro a ha
      rcases List.mem_cons.mp ha with rfl | ha'
      · exact h
      · exact le_trans (hy a ha') h
    · rw [insertByCreatedAtDesc, if_neg h]
      refine List.pairwise_cons.mpr ⟨?_, ih hys⟩
      intro a ha
      rcases mem_insertByCreatedAtDesc ha with rfl | ha'
      · exact le_of_lt (not_le.mp h)
      · exact hy a ha'

theorem pairwise_sortByCreatedAtDesc (l : List Entry) :
    (sortByCreatedAtDesc l).Pairwise (fun a b => b.createdAt ≤ a.createdAt) := by
  induction l with
  | nil => simp [sortByCreatedAtDesc]
  | cons x xs ih => exact pairwise_insertByCreatedAtDesc ih

/-- Reduction of `put` to its storage-touching core once multer's filter
and the envelope-id validation pass. -/
theorem put_eq_putCore (st : St) (raw : Option String) (eid : Nat) (f : File) (bf cf : Bool)
    (hid : envelopeIdOf raw = some eid)
    (himg : strStartsWith f.mimetype "image/" = true) :
    put st raw (some f) bf cf = putCore st eid f bf cf := by
  simp [put, multerRejects, himg, hid]

/-! ## Claim C1 -/

/-- Claim C1, counterexample: the claim says a superseded blob's deletion is
requested only after the catalog upsert is acknowledged.  In the concrete
replacing upload (`stOne` holds envelope 5 with blob 0; a new image is
uploaded for envelope 5) the execution trace is `blobDelete 0`, then
`blobWrite 1`, then `catalogUpsert 5 1`: the deletion comes first, so the
claimed ordering predicate evaluates to `false`. -/
theorem C1_counterexample :
    ((put stOne (some "5") (some dogFile) false false).2.2.map Prod.fst) =
      [Event.blobDelete 0, Event.blobWrite 1, Event.catalogUpsert 5 1] ∧
    deletionOnlyAfterUpsert
      ((put stOne (some "5") (some dogFile) false false).2.2.map Prod.fst) = false := by
  decide

/-- Claim C1, amended: in every `put` execution that passes validation and
finds an existing document with a blob handle, the old blob's deletion is
the *first* storage effect — requested before the new blob is written and
before the catalog upsert (which the catalog, still referencing the old
handle at that moment, has not yet acknowledged) — so the claimed
deletion-only-after-upsert ordering fails on every such execution. -/
theorem C1_amended_old_blob_deleted_before_upsert (st : St) (raw : Option String)
    (eid : Nat) (f : File) (e : Entry) (hOld : Nat) (bf cf : Bool)
    (hid : envelopeIdOf raw = some eid)
    (himg : strStartsWith f.mimetype "image/" = true)
    (hf : findOne st.catalog eid = some e) (hfid : e.fileId = some hOld) :
    (put st raw (some f) bf cf).2.2.head? = some (Event.blobDelete hOld, st) ∧
      entryRefs st.catalog hOld = true ∧
      deletionOnlyAfterUpsert ((put st raw (some f) bf cf).2.2.map Prod.fst) = false := by
  rw [put_eq_putCore st raw eid f bf cf hid himg]
  refine ⟨?_, ?_, ?_⟩
  · cases bf <;> cases cf <;> simp [putCore, hf, hfid]
  · exact List.any_eq_true.mpr ⟨e, List.mem_of_find?_eq_some hf, by simp [hfid]⟩
  · cases bf <;> cases cf <;>
      simp [putCore, hf, hfid, deletionOnlyAfterUpsert, deletionOnlyAfterUpsertFrom]

/-- Witness for the amended C1 theorem at the concrete replacing upload. -/
theorem C1_amended_witness :
    envelopeIdOf (some "5") = some 5 ∧
    strStartsWith dogFile.mimetype "image/" = true ∧
    findOne stOne.catalog 5 = some entryOne ∧
    entryOne.fileId = some 0 ∧
    ((put stOne (some "5") (some dogFile) false false).2.2.head? =
        some (Event.blobDelete 0, stOne) ∧
      entryRefs stOne.catalog 0 = true ∧
      deletionOnlyAfterUpsert
        ((put stOne (some "5") (some dogFile) false false).2.2.map Prod.fst) = false) :=
  ⟨by decide, by decide, by decide, by decide,
    C1_amended_old_blob_deleted_before_upsert stOne (some "5") 5 dogFile entryOne 0 false false
      (by decide) (by decide) (by decide) (by decide)⟩

/-! ## Claim C2 -/

/-- Claim C2, counterexample: the claim says no operation issues a blob
deletion for a handle a currently-present catalog document still
references.  In the concrete replacing upload, `put` issues
`blobDelete 0` while the catalog still holds the envelope-5 document whose
`fileId` is 0, so the claimed invariant evaluates to `false` on that
execution's trace. -/
theorem C2_counterexample :
    noLiveRefDeleted (put stOne (some "5") (some dogFile) false false).2.2 = false := by
  decide

/-- Claim C2, amended: the delete handler never violates the invariant (the
document is removed before its blob is deleted, and with pairwise-distinct
blob references no remaining document references the deleted handle), but
`put` does: when a prior document with a blob exists, `put`'s first effect
is the deletion of that old handle, issued while the catalog document still
references it. -/
theorem C2_amended_only_put_deletes_live_handle (stD : St) (rawD : String)
    (stP : St) (rawP : Option String) (eidP : Nat) (f : File) (e : Entry) (hOld : Nat)
    (bf cf : Bool)
    (hQ : stD.catalog.Pairwise (fun a b => a.fileId = none ∨ a.fileId ≠ b.fileId))
    (hid : envelopeIdOf rawP = some eidP)
    (himg : strStartsWith f.mimetype "image/" = true)
    (hf : findOne stP.catalog eidP = some e) (hfid : e.fileId = some hOld) :
    noLiveRefDeleted (deleteEnvelope stD rawD).2.2 = true ∧
      (put stP rawP (some f) bf cf).2.2.head? = some (Event.blobDelete hOld, stP) ∧
      entryRefs stP.catalog hOld = true := by
  refine ⟨?_, ?_, ?_⟩
  · rcases hD : envelopeIdOf (some rawD) with _ | eid
    · simp [deleteEnvelope, hD, noLiveRefDeleted]
    · rcases hr : removeOne stD.catalog eid with ⟨d, cat'⟩
      rcases d with _ | doc
      · simp [deleteEnvelope, hD, hr, noLiveRefDeleted]
      · rcases hdf : doc.fileId with _ | h
        · simp [deleteEnvelope, hD, hr, hdf, noLiveRefDeleted, isBlobDelete]
        · obtain ⟨l₁, l₂, hcat, hcat', hdeid⟩ := removeOne_eq_some hr
          have hnoref : entryRefs cat' h = false := by
            refine List.any_eq_false.mpr ?_
            intro x hx
            have hx' : x ∈ l₁ ∨ x ∈ l₂ := List.mem_append.mp (hcat' ▸ hx)
            rw [hcat, List.pairwise_append] at hQ
            obtain ⟨hQ1, hQ2, hQcross⟩ := hQ
            have hxne : x.fileId ≠ some h := by
              rcases hx' with hx1 | hx2
              · rcases hQcross x hx1 doc (List.mem_cons_self _ _) with hn | hne
                · simp [hn]
                · rw [hdf] at hne; exact hne
              · rcases (List.pairwise_cons.mp hQ2).1 x hx2 with hn | hne
                · rw [hdf] at hn; cases hn
                · rw [hdf] at hne; exact fun hc => hne hc.symm
            simp [hxne]
          simp [deleteEnvelope, hD, hr, hdf, noLiveRefDeleted, hnoref]
  · rw [put_eq_putCore stP rawP eidP f bf cf hid himg]
    cases bf <;> cases cf <;> simp [putCore, hf, hfid]
  · exact List.any_eq_true.mpr ⟨e, List.mem_of_find?_eq_some hf, by simp [hfid]⟩

/-- Witness for the amended C2 theorem at concrete states. -/
theorem C2_amended_witness :
    stOne.catalog.Pairwise (fun a b => a.fileId = none ∨ a.fileId ≠ b.fileId) ∧
    envelopeIdOf (some "5") = some 5 ∧
    strStartsWith dogFile.mimetype "image/" = true ∧
    findOne stOne.catalog 5 = some entryOne ∧
    entryOne.fileId = some 0 ∧
    (noLiveRefDeleted (deleteEnvelope stOne "5").2.2 = true ∧
      (put stOne (some "5") (some dogFile) false false).2.2.head? =
        some (Event.blobDelete 0, stOne) ∧
      entryRefs stOne.catalog 0 = true) :=
  ⟨by decide, by decide, by decide, by decide, by decide,
    C2_amended_only_put_deletes_live_handle stOne "5" stOne (some "5") 5 dogFile entryOne 0
      false false (by decide) (by decide) (by decide) (by decide) (by decide)⟩

/-! ## Claim C3 -/

/-- Claim C3: for every well-formed state, valid envelope id, and image
file, after `put(id, bytes, name, type)` succeeds, the envelope lookup
returns a document whose blob, read back by handle, yields exactly the
uploaded bytes (with the uploaded content type as stream framing), and
whose `mimeType`/`originalName`/`size` equal the inputs, with `size` the
number of bytes written. -/
theorem C3_put_then_get_roundtrip (st : St) (u : Bool) (raw : Option String) (eid : Nat)
    (f : File) (hWF : WF st) (hid : envelopeIdOf raw = some eid)
    (himg : strStartsWith f.mimetype "image/" = true) :
    ∃ entry : Entry,
      (put st raw (some f) false false).1 = PutResult.ok entry ∧
      envelopesGet u (put st raw (some f) false false).2.1 eid = some entry ∧
      entry.fileId = some st.nextHandle ∧
      readBlob (put st raw (some f) false false).2.1 st.nextHandle =
        some ⟨f.mimetype, f.buffer⟩ ∧
      entry.mimeType = f.mimetype ∧
      entry.originalName = f.originalname ∧
      entry.size = f.buffer.length := by
  obtain ⟨hP, hQ, hB, hBnd, hCnd⟩ := hWF
  have hfresh : ∀ p ∈ st.blobs, p.1 ≠ st.nextHandle := fun p hp => Nat.ne_of_lt (hBnd p hp)
  rw [put_eq_putCore st raw eid f false false hid himg]
  rcases hf : findOne st.catalog eid with _ | e
  · refine ⟨⟨eid, f.originalname, f.mimetype, f.buffer.length, some st.nextHandle,
      "/api/files/" ++ toString st.nextHandle, st.now⟩, ?_, ?_, rfl, ?_, rfl, rfl, rfl⟩
    · simp [putCore, hf]
    · have hget := find?_reverse_filter_upsertEntry u hP
        (e := ⟨eid, f.originalname, f.mimetype, f.buffer.length, some st.nextHandle,
          "/api/files/" ++ toString st.nextHandle, st.now⟩) rfl (by simp [visibleEntry])
      simpa [putCore, hf, envelopesGet] using hget
    · simp [putCore, hf, readBlob, find?_append_fresh hfresh]
  · rcases hfid : e.fileId with _ | hOld
    · refine ⟨⟨eid, f.originalname, f.mimetype, f.buffer.length, some st.nextHandle,
        "/api/files/" ++ toString st.nextHandle, e.createdAt⟩, ?_, ?_, rfl, ?_, rfl, rfl, rfl⟩
      · simp [putCore, hf, hfid]
      · have hget := find?_reverse_filter_upsertEntry u hP
          (e := ⟨eid, f.originalname, f.mimetype, f.buffer.length, some st.nextHandle,
            "/api/files/" ++ toString st.nextHandle, e.createdAt⟩) rfl (by simp [visibleEntry])
        simpa [putCore, hf, hfid, envelopesGet] using hget
      · simp [putCore, hf, hfid, readBlob, find?_append_fresh hfresh]
    · have hfresh' : ∀ p ∈ blobsDelete st.blobs hOld, p.1 ≠ st.nextHandle :=
        fun p hp => hfresh p (List.mem_of_mem_filter hp)
      refine ⟨⟨eid, f.originalname, f.mimetype, f.buffer.length, some st.nextHandle,
        "/api/files/" ++ toString st.nextHandle, e.createdAt⟩, ?_, ?_, rfl, ?_, rfl, rfl, rfl⟩
      · simp [putCore, hf, hfid]
      · have hget := find?_reverse_filter_upsertEntry u hP
          (e := ⟨eid, f.originalname, f.mimetype, f.buffer.length, some st.nextHandle,
            "/api/files/" ++ toString st.nextHandle, e.createdAt⟩) rfl (by simp [visibleEntry])
        simpa [putCore, hf, hfid, envelopesGet] using hget
      · simp [putCore, hf, hfid, readBlob, find?_append_fresh hfresh']

/-- Witness for C3 at the concrete first upload. -/
theorem C3_put_then_get_roundtrip_witness :
    WF st0 ∧ envelopeIdOf (some "5") = some 5 ∧
    strStartsWith pngFile.mimetype "image/" = true ∧
    (∃ entry : Entry,
      (put st0 (some "5") (some pngFile) false false).1 = PutResult.ok entry ∧
      envelopesGet false (put st0 (some "5") (some pngFile) false false).2.1 5 = some entry ∧
      entry.fileId = some st0.nextHandle ∧
      readBlob (put st0 (some "5") (some pngFile) false false).2.1 st0.nextHandle =
        some ⟨pngFile.mimetype, pngFile.buffer⟩ ∧
      entry.mimeType = pngFile.mimetype ∧
      entry.originalName = pngFile.originalname ∧
      entry.size = pngFile.buffer.length) :=
  ⟨by decide, by decide, by decide,
    C3_put_then_get_roundtrip st0 false (some "5") 5 pngFile (by decide) (by decide) (by decide)⟩

/-! ## Claim C4 -/

/-- Claim C4, counterexample: the claim says that on a catalog-upsert
failure the newly written orphan blob gets a best-effort immediate
deletion attempt.  In the concrete execution (existing envelope 5, upsert
fails) `put` returns the error, but its trace holds no `blobDelete` of the
new handle 1 and the orphan blob is still stored afterwards — no cleanup
was attempted. -/
theorem C4_counterexample :
    (put stOne (some "5") (some dogFile) false true).1 = PutResult.serverError ∧
    ((put stOne (some "5") (some dogFile) false true).2.2.map Prod.fst).contains
      (Event.blobDelete 1) = false ∧
    readBlob (put stOne (some "5") (some dogFile) false true).2.1 1 =
      some ⟨"image/png", [9, 9]⟩ := by
  decide

/-- Claim C4, amended: if the catalog upsert fails after the new blob was
fully written, `put` returns an error, the catalog documents are unchanged
(the pre-existing document, if any, remains the catalog's answer for the
envelope), and **no** deletion of the newly written orphan blob is
attempted — it stays readable in the blob store. -/
theorem C4_amended_orphan_not_cleaned (st : St) (raw : Option String) (eid : Nat) (f : File)
    (u : Bool) (hWF : WF st) (hid : envelopeIdOf raw = some eid)
    (himg : strStartsWith f.mimetype "image/" = true) :
    (put st raw (some f) false true).1 = PutResult.serverError ∧
      (put st raw (some f) false true).2.1.catalog = st.catalog ∧
      envelopesGet u (put st raw (some f) false true).2.1 eid = envelopesGet u st eid ∧
      ((put st raw (some f) false true).2.2.map Prod.fst).contains
        (Event.blobDelete st.nextHandle) = false ∧
      readBlob (put st raw (some f) false true).2.1 st.nextHandle =
        some ⟨f.mimetype, f.buffer⟩ := by
  obtain ⟨hP, hQ, hB, hBnd, hCnd⟩ := hWF
  have hfresh : ∀ p ∈ st.blobs, p.1 ≠ st.nextHandle := fun p hp => Nat.ne_of_lt (hBnd p hp)
  rw [put_eq_putCore st raw eid f false true hid himg]
  rcases hf : findOne st.catalog eid with _ | e
  · refine ⟨by simp [putCore, hf], by simp [putCore, hf],
      by simp [putCore, hf, envelopesGet], ?_, ?_⟩
    · simp [putCore, hf]
    · simp [putCore, hf, readBlob, find?_append_fresh hfresh]
  · rcases hfid : e.fileId with _ | hOld
    · refine ⟨by simp [putCore, hf, hfid], by simp [putCore, hf, hfid],
        by simp [putCore, hf, hfid, envelopesGet], ?_, ?_⟩
      · simp [putCore, hf, hfid]
      · simp [putCore, hf, hfid, readBlob, find?_append_fresh hfresh]
    · have hOldlt : hOld < st.nextHandle :=
        hCnd e (List.mem_of_find?_eq_some hf) hOld hfid
      have hfresh' : ∀ p ∈ blobsDelete st.blobs hOld, p.1 ≠ st.nextHandle :=
        fun p hp => hfresh p (List.mem_of_mem_filter hp)
      refine ⟨by simp [putCore, hf, hfid], by simp [putCore, hf, hfid],
        by simp [putCore, hf, hfid, envelopesGet], ?_, ?_⟩
      · have hne2 : st.nextHandle ≠ hOld := fun hc => Nat.ne_of_lt hOldlt hc.symm
        simp [putCore, hf, hfid, hne2]
      · simp [putCore, hf, hfid, readBlob, find?_append_fresh hfresh']

/-- Witness for the amended C4 theorem at the concrete replacing upload. -/
theorem C4_amended_witness :
    WF stOne ∧ envelopeIdOf (some "5") = some 5 ∧
    strStartsWith dogFile.mimetype "image/" = true ∧
    ((put stOne (some "5") (some dogFile) false true).1 = PutResult.serverError ∧
      (put stOne (some "5") (some dogFile) false true).2.1.catalog = stOne.catalog ∧
      envelopesGet false (put stOne (some "5") (some dogFile) false true).2.1 5 =
        envelopesGet false stOne 5 ∧
      ((put stOne (some "5") (some dogFile) false true).2.2.map Prod.fst).contains
        (Event.blobDelete stOne.nextHandle) = false ∧
      readBlob (put stOne (some "5") (some dogFile) false true).2.1 stOne.nextHandle =
        some ⟨dogFile.mimetype, dogFile.buffer⟩) :=
  ⟨by decide, by decide, by decide,
    C4_amended_orphan_not_cleaned stOne (some "5") 5 dogFile false (by decide) (by decide)
      (by decide)⟩

/-! ## Claim C5 -/

/-- Claim C5: when the envelope id fails validation (coerces to NaN, a
non-integer, or a negative number), both the upload and the delete handler
answer with a 400 validation error, leave the state (catalog and blob
store) unchanged, and perform no storage effect at all. -/
theorem C5_invalid_id_no_mutation (st : St) (raw : Option String) (rawD : String)
    (file : Option File) (bf cf : Bool)
    (hput : envelopeIdOf raw = none) (hdel : envelopeIdOf (some rawD) = none) :
    ((∃ msg, (put st raw file bf cf).1 = PutResult.badRequest msg) ∧
        (put st raw file bf cf).2.1 = st ∧ (put st raw file bf cf).2.2 = []) ∧
      (deleteEnvelope st rawD).1 = DeleteResult.badRequest "Invalid envelopeId" ∧
      (deleteEnvelope st rawD).2.1 = st ∧ (deleteEnvelope st rawD).2.2 = [] := by
  refine ⟨?_, ?_⟩
  · rcases hm : multerRejects file with _ | _
    · simp [put, hm, hput]
    · simp [put, hm]
  · simp [deleteEnvelope, hdel]

/-- Witness for C5 at the spec's own test inputs `"abc"` and `"-1"`. -/
theorem C5_invalid_id_no_mutation_witness :
    envelopeIdOf (some "abc") = none ∧ envelopeIdOf (some "-1") = none ∧
    (((∃ msg, (put st0 (some "abc") (some pngFile) false false).1 = PutResult.badRequest msg) ∧
        (put st0 (some "abc") (some pngFile) false false).2.1 = st0 ∧
        (put st0 (some "abc") (some pngFile) false false).2.2 = []) ∧
      (deleteEnvelope st0 "-1").1 = DeleteResult.badRequest "Invalid envelopeId" ∧
      (deleteEnvelope st0 "-1").2.1 = st0 ∧ (deleteEnvelope st0 "-1").2.2 = []) :=
  ⟨by decide, by decide,
    C5_invalid_id_no_mutation st0 (some "abc") "-1" (some pngFile) false false
      (by decide) (by decide)⟩

/-! ## Claim C6 -/

/-- Claim C6: if the blob write fails mid-stream, `put` returns an error,
the catalog documents are exactly what they were before the call (the old
document, if any, is still present and unmodified), and the execution
performs no catalog upsert. -/
theorem C6_blob_write_failure_leaves_catalog (st : St) (raw : Option String) (eid : Nat)
    (f : File) (cf : Bool) (hid : envelopeIdOf raw = some eid)
    (himg : strStartsWith f.mimetype "image/" = true) :
    (put st raw (some f) true cf).1 = PutResult.serverError ∧
      (put st raw (some f) true cf).2.1.catalog = st.catalog ∧
      ((put st raw (some f) true cf).2.2.map Prod.fst).all
        (fun ev => ! isCatalogUpsert ev) = true := by
  rw [put_eq_putCore st raw eid f true cf hid himg]
  rcases hf : findOne st.catalog eid with _ | e
  · simp [putCore, hf, isCatalogUpsert]
  · rcases hfid : e.fileId with _ | hOld
    · simp [putCore, hf, hfid, isCatalogUpsert]
    · simp [putCore, hf, hfid, isCatalogUpsert]

/-- Witness for C6 at the concrete replacing upload with an injected
stream failure. -/
theorem C6_blob_write_failure_witness :
    envelopeIdOf (some "5") = some 5 ∧
    strStartsWith dogFile.mimetype "image/" = true ∧
    ((put stOne (some "5") (some dogFile) true false).1 = PutResult.serverError ∧
      (put stOne (some "5") (some dogFile) true false).2.1.catalog = stOne.catalog ∧
      ((put stOne (some "5") (some dogFile) true false).2.2.map Prod.fst).all
        (fun ev => ! isCatalogUpsert ev) = true) :=
  ⟨by decide, by decide,
    C6_blob_write_failure_leaves_catalog stOne (some "5") 5 dogFile false (by decide) (by decide)⟩

/-! ## Claim C7 -/

/-- Claim C7, counterexample: the claim says an empty *or* missing byte
stream is rejected with no mutation.  A present file whose buffer is empty
passes the handler's only check (`!req.file`): the concrete upload of a
zero-byte image to the empty state succeeds and mutates the state. -/
theorem C7_counterexample :
    (put st0 (some "0") (some emptyFile) false false).1 =
      PutResult.ok ⟨0, "empty.png", "image/png", 0, some 0, "/api/files/0", 0⟩ ∧
    (put st0 (some "0") (some emptyFile) false false).2.1 ≠ st0 := by
  decide

/-- Claim C7, amended: only a *missing* byte stream is rejected
(`No file uploaded`, no state change, no storage effect); an empty-but-
present byte stream is accepted and stored, producing a document with
`size = 0`. -/
theorem C7_amended_missing_rejected_empty_accepted (st : St) (raw : Option String) (eid : Nat)
    (g : File) (bf cf : Bool) (hid : envelopeIdOf raw = some eid)
    (himg : strStartsWith g.mimetype "image/" = true) (hempty : g.buffer = []) :
    ((put st raw none bf cf).1 = PutResult.badRequest "No file uploaded" ∧
        (put st raw none bf cf).2.1 = st ∧ (put st raw none bf cf).2.2 = []) ∧
      ∃ entry : Entry, (put st raw (some g) false false).1 = PutResult.ok entry ∧
        entry.size = 0 := by
  refine ⟨?_, ?_⟩
  · simp [put, multerRejects, hid]
  · rw [put_eq_putCore st raw eid g false false hid himg]
    rcases hf : findOne st.catalog eid with _ | e
    · refine ⟨⟨eid, g.originalname, g.mimetype, g.buffer.length, some st.nextHandle,
        "/api/files/" ++ toString st.nextHandle, st.now⟩, ?_, ?_⟩
      · simp [putCore, hf]
      · simp [hempty]
    · rcases hfid : e.fileId with _ | hOld
      · refine ⟨⟨eid, g.originalname, g.mimetype, g.buffer.length, some st.nextHandle,
          "/api/files/" ++ toString st.nextHandle, e.createdAt⟩, ?_, ?_⟩
        · simp [putCore, hf, hfid]
        · simp [hempty]
      · refine ⟨⟨eid, g.originalname, g.mimetype, g.buffer.length, some st.nextHandle,
          "/api/files/" ++ toString st.nextHandle, e.createdAt⟩, ?_, ?_⟩
        · simp [putCore, hf, hfid]
        · simp [hempty]

/-- Witness for the amended C7 theorem. -/
theorem C7_amended_witness :
    envelopeIdOf (some "3") = some 3 ∧
    strStartsWith emptyFile.mimetype "image/" = true ∧ emptyFile.buffer = [] ∧
    (((put st0 (some "3") none false false).1 = PutResult.badRequest "No file uploaded" ∧
        (put st0 (some "3") none false false).2.1 = st0 ∧
        (put st0 (some "3") none false false).2.2 = []) ∧
      ∃ entry : Entry, (put st0 (some "3") (some emptyFile) false false).1 = PutResult.ok entry ∧
        entry.size = 0) :=
  ⟨by decide, by decide, by decide,
    C7_amended_missing_rejected_empty_accepted st0 (some "3") 3 emptyFile false false
      (by decide) (by decide) (by decide)⟩

/-! ## Claim C8 -/

/-- Claim C8: for every catalog state, the listing endpoint's result is
sorted by `createdAt` descending and never longer than 200 entries. -/
theorem C8_getAll_sorted_and_bounded (u : Bool) (st : St) :
    (getAll u st).length ≤ 200 ∧
    (getAll u st).Pairwise (fun a b => b.createdAt ≤ a.createdAt) := by
  constructor
  · calc (getAll u st).length
        ≤ ((sortByCreatedAtDesc st.catalog).take 200).length := List.length_filter_le _ _
      _ ≤ 200 := List.length_take_le _ _
  · exact List.Pairwise.sublist (List.filter_sublist _)
      (List.Pairwise.sublist (List.take_sublist _ _) (pairwise_sortByCreatedAtDesc _))

/-! ## Claim C9 -/

/-- Claim C9: deleting a valid envelope id with no catalog document answers
`deleted: false` without error and leaves catalog and blob store
untouched, with no storage effect. -/
theorem C9_delete_absent_idempotent (st : St) (raw : String) (eid : Nat)
    (hid : envelopeIdOf (some raw) = some eid)
    (habsent : findOne st.catalog eid = none) :
    deleteEnvelope st raw = (DeleteResult.okDeleted false, st, []) := by
  have hnone : ∀ e ∈ st.catalog, (e.envelopeId == eid) = false := by
    intro e he
    simpa using List.find?_eq_none.mp habsent e he
  simp [deleteEnvelope, hid, removeOne_of_not_found hnone]

/-- Witness for C9: deleting envelope 7 from the empty state. -/
theorem C9_delete_absent_idempotent_witness :
    envelopeIdOf (some "7") = some 7 ∧ findOne st0.catalog 7 = none ∧
    deleteEnvelope st0 "7" = (DeleteResult.okDeleted false, st0, []) :=
  ⟨by decide, by decide, C9_delete_absent_idempotent st0 "7" 7 (by decide) (by decide)⟩

/-! ## Claim C10 -/

/-- Claim C10: the `Number` coercion makes the envelope-id validation
accept non-canonical strings — the empty string and a whitespace-only
string coerce to 0 and are accepted, `"1e2"` is accepted as 100, and an
upload with an empty `envelopeId` field proceeds to create/replace the
document for envelope 0. -/
theorem C10_coercion_accepts_noncanonical :
    envelopeIdOf (some "") = some 0 ∧
    envelopeIdOf (some " \t ") = some 0 ∧
    envelopeIdOf (some "1e2") = some 100 ∧
    (put st0 (some "") (some pngFile) false false).1 =
      PutResult.ok ⟨0, "cat.png", "image/png", 3, some 0, "/api/files/0", 0⟩ ∧
    envelopesGet false (put st0 (some "") (some pngFile) false false).2.1 0 =
      some ⟨0, "cat.png", "image/png", 3, some 0, "/api/files/0", 0⟩ := by
  decide
